import Mathlib

/-!
Verification of the diva-controller-linux keyboard injection layer and
touch-to-key controller, shallowly embedded from the Go source.

Backends are modelled as explicit state-passing functions.  External I/O
success (device writes, subprocess runs) is an oracle stream `List Bool`
consumed left to right; the empty stream means every operation succeeds.
Emitted kernel input events / dispatched subprocess commands are returned
as explicit lists so that claims about "emitted events" are statable.
-/

namespace Diva

/-- `syscall.Timeval`: seconds and microseconds of a timestamp. -/
structure Timeval where
  sec : Int
  usec : Int
deriving DecidableEq, Repr

/-- Linux input event type constant `EV_SYN = 0x00`. -/
def EV_SYN : Nat := 0x00

/-- Linux input event type constant `EV_KEY = 0x01`. -/
def EV_KEY : Nat := 0x01

/-- Linux input event code constant `SYN_REPORT = 0x00`. -/
def SYN_REPORT : Nat := 0x00

/-- The fixed-size binary record `inputEvent` written to the uinput device:
timestamp, 16-bit type, 16-bit code, 32-bit signed value. -/
structure InputEvent where
  time : Timeval
  typ : Nat
  code : Nat
  value : Int
deriving DecidableEq, Repr

/-- The static key-code table `linuxKeyCodes`, entry for entry from the source. -/
def linuxKeyCodes : List (String × Nat) :=
  [("W", 17), ("A", 30), ("S", 31), ("D", 32),
   ("w", 17), ("a", 30), ("s", 31), ("d", 32),
   ("UP", 103), ("DOWN", 108), ("LEFT", 105), ("RIGHT", 106),
   ("up", 103), ("down", 108), ("left", 105), ("right", 106),
   ("SPACE", 57), ("space", 57),
   ("ENTER", 28), ("enter", 28),
   ("Q", 16), ("E", 18), ("R", 19), ("F", 33),
   ("q", 16), ("e", 18), ("r", 19), ("f", 33),
   ("1", 2), ("2", 3), ("3", 4), ("4", 5),
   ("5", 6), ("6", 7), ("7", 8), ("8", 9), ("9", 10), ("0", 11),
   ("I", 23), ("J", 36), ("K", 37), ("L", 38),
   ("i", 23), ("j", 36), ("k", 37), ("l", 38),
   ("U", 22), ("O", 24), ("P", 25),
   ("u", 22), ("o", 24), ("p", 25)]

/-- Errors a backend call can return (`error` values in the Go source). -/
inductive KbdError
  | unknownKey (key : String)
  | ioError
  | execError
deriving DecidableEq, Repr

/-- Association-list lookup modelling a Go map read (`m[k]`, with
presence information). -/
def lookupKey {α : Type} : List (String × α) → String → Option α
  | [], _ => none
  | (a, b) :: rest, k => if k = a then some b else lookupKey rest k

/-- Read a Go map `map[string]bool`: a missing key reads as `false`. -/
def getState (m : List (String × Bool)) (k : String) : Bool :=
  (lookupKey m k).getD false

/-- Write a Go map `map[string]bool` (`m[k] = v`): update the entry in
place, or append a new one if the key is absent. -/
def setState (m : List (String × Bool)) (k : String) (v : Bool) :
    List (String × Bool) :=
  match m with
  | [] => [(k, v)]
  | (a, b) :: rest =>
    if a = k then (a, v) :: rest else (a, b) :: setState rest k v

/-- `delete` on a Go map `map[string]bool`. -/
def delState (m : List (String × Bool)) (k : String) : List (String × Bool) :=
  m.filter (fun p => p.1 ≠ k)

/-- Draw the next outcome from the I/O success oracle; an exhausted
stream means all further operations succeed. -/
def wtake : List Bool → Bool × List Bool
  | [] => (true, [])
  | b :: bs => (b, bs)

/-- The `UInputBackend` struct: device file descriptor and per-key state. -/
structure UInputBackend where
  fd : Int
  keyState : List (String × Bool)
deriving DecidableEq, Repr

/-- `UInputBackend.sendEvent`: write one `inputEvent` record to the device.
Returns the error (if the write failed), the records actually emitted,
and the rest of the oracle. -/
def UInputBackend.sendEvent (_u : UInputBackend) (tv : Timeval)
    (typ code : Nat) (value : Int) (ws : List Bool) :
    Option KbdError × List InputEvent × List Bool :=
  let (ok, ws1) := wtake ws
  if ok then (none, [⟨tv, typ, code, value⟩], ws1)
  else (some KbdError.ioError, [], ws1)

/-- `UInputBackend.Press`: no-op if already pressed; unknown-key error if the
key is missing from the table; otherwise a key-down event then a sync event,
marking the key pressed only after both writes succeed. -/
def UInputBackend.Press (u : UInputBackend) (key : String)
    (t1 t2 : Timeval) (ws : List Bool) :
    Option KbdError × UInputBackend × List InputEvent × List Bool :=
  if getState u.keyState key then (none, u, [], ws)
  else
    match lookupKey linuxKeyCodes key with
    | none => (some (KbdError.unknownKey key), u, [], ws)
    | some code =>
      match u.sendEvent t1 EV_KEY code 1 ws with
      | (some e, evs1, ws1) => (some e, u, evs1, ws1)
      | (none, evs1, ws1) =>
        match u.sendEvent t2 EV_SYN SYN_REPORT 0 ws1 with
        | (some e, evs2, ws2) => (some e, u, evs1 ++ evs2, ws2)
        | (none, evs2, ws2) =>
          (none, { u with keyState := setState u.keyState key true },
           evs1 ++ evs2, ws2)

/-- `UInputBackend.Release`: symmetric to `Press` with value 0. -/
def UInputBackend.Release (u : UInputBackend) (key : String)
    (t1 t2 : Timeval) (ws : List Bool) :
    Option KbdError × UInputBackend × List InputEvent × List Bool :=
  if !getState u.keyState key then (none, u, [], ws)
  else
    match lookupKey linuxKeyCodes key with
    | none => (some (KbdError.unknownKey key), u, [], ws)
    | some code =>
      match u.sendEvent t1 EV_KEY code 0 ws with
      | (some e, evs1, ws1) => (some e, u, evs1, ws1)
      | (none, evs1, ws1) =>
        match u.sendEvent t2 EV_SYN SYN_REPORT 0 ws1 with
        | (some e, evs2, ws2) => (some e, u, evs1 ++ evs2, ws2)
        | (none, evs2, ws2) =>
          (none, { u with keyState := setState u.keyState key false },
           evs1 ++ evs2, ws2)

/-- The `for key := range u.keyState { u.Release(key) }` loop of
`UInputBackend.Close`, with release errors discarded. -/
def UInputBackend.releaseAll (u : UInputBackend) (keys : List String)
    (tv : Timeval) (ws : List Bool) :
    UInputBackend × List InputEvent × List Bool :=
  match keys with
  | [] => (u, [], ws)
  | k :: ks =>
    match u.Release k tv tv ws with
    | (_r, u1, evs1, ws1) =>
      match UInputBackend.releaseAll u1 ks tv ws1 with
      | (u2, evs2, ws2) => (u2, evs1 ++ evs2, ws2)

/-- Observable actions of `UInputBackend.Close`: event-record writes, the
`UI_DEV_DESTROY` ioctl, and closing the file descriptor. -/
inductive UAction
  | write (ev : InputEvent)
  | destroy
  | closeFd
deriving DecidableEq, Repr

/-- `UInputBackend.Close`: release every key in the state map (errors
ignored), then issue the device-destroy ioctl and close the descriptor. -/
def UInputBackend.Close (u : UInputBackend) (tv : Timeval) (ws : List Bool) :
    UInputBackend × List UAction :=
  match UInputBackend.releaseAll u (u.keyState.map Prod.fst) tv ws with
  | (u1, evs, _ws1) =>
    (u1, evs.map UAction.write ++ [UAction.destroy, UAction.closeFd])

/-- Go `strings.ToLower` on key names, modelled character-wise so that it
evaluates in the kernel. -/
def toLowerStr (s : String) : String := ⟨s.data.map Char.toLower⟩

/-- A subprocess invocation of the form `xdotool keydown ARG` / `keyup ARG`. -/
inductive XCmd
  | keydown (arg : String)
  | keyup (arg : String)
deriving DecidableEq, Repr

/-- The `X11Backend` struct: per-key state only. -/
structure X11Backend where
  keyState : List (String × Bool)
deriving DecidableEq, Repr

/-- `X11Backend.Press`: no-op if already pressed; otherwise run
`xdotool keydown` on the lowercased key name, marking pressed on success. -/
def X11Backend.Press (x : X11Backend) (key : String) (cs : List Bool) :
    Option KbdError × X11Backend × List XCmd × List Bool :=
  if getState x.keyState key then (none, x, [], cs)
  else
    let (ok, cs1) := wtake cs
    if ok then
      (none, ⟨setState x.keyState key true⟩, [XCmd.keydown (toLowerStr key)], cs1)
    else (some KbdError.execError, x, [XCmd.keydown (toLowerStr key)], cs1)

/-- `X11Backend.Release`: symmetric to `X11Backend.Press`. -/
def X11Backend.Release (x : X11Backend) (key : String) (cs : List Bool) :
    Option KbdError × X11Backend × List XCmd × List Bool :=
  if !getState x.keyState key then (none, x, [], cs)
  else
    let (ok, cs1) := wtake cs
    if ok then
      (none, ⟨setState x.keyState key false⟩, [XCmd.keyup (toLowerStr key)], cs1)
    else (some KbdError.execError, x, [XCmd.keyup (toLowerStr key)], cs1)

/-- The release loop of `X11Backend.Close`, errors discarded. -/
def X11Backend.releaseAll (x : X11Backend) (keys : List String)
    (cs : List Bool) : X11Backend × List XCmd × List Bool :=
  match keys with
  | [] => (x, [], cs)
  | k :: ks =>
    match x.Release k cs with
    | (_r, x1, cmds1, cs1) =>
      match X11Backend.releaseAll x1 ks cs1 with
      | (x2, cmds2, cs2) => (x2, cmds1 ++ cmds2, cs2)

/-- `X11Backend.Close`: release every key in the state map, ignoring errors. -/
def X11Backend.Close (x : X11Backend) (cs : List Bool) :
    X11Backend × List XCmd :=
  match X11Backend.releaseAll x (x.keyState.map Prod.fst) cs with
  | (x1, cmds, _cs1) => (x1, cmds)

/-- Which backend `NewKeyboardBackend` selected. -/
inductive BackendChoice
  | uinput
  | x11
deriving DecidableEq, Repr

/-- `NewKeyboardBackend`: try uinput first; else, if `DISPLAY` reads as a
non-empty string, try the X11 backend; else fail (`none` stands for the
`NoBackendAvailable` error).  `uinputOpenOk` / `x11OpenOk` abstract the
success of the respective constructors, `display` is `os.Getenv("DISPLAY")`. -/
def NewKeyboardBackend (uinputOpenOk : Bool) (display : String)
    (x11OpenOk : Bool) : Option BackendChoice :=
  if uinputOpenOk then some BackendChoice.uinput
  else
    if display ≠ "" then
      if x11OpenOk then some BackendChoice.x11 else none
    else none

/-- The `Config` struct: zone/arrow/slider key bindings and the verbose flag. -/
structure Config where
  TriangleKey : String
  SquareKey : String
  CrossKey : String
  CircleKey : String
  LeftArrowKey : String
  RightArrowKey : String
  UpArrowKey : String
  DownArrowKey : String
  SliderLeftKey : String
  SliderRightKey : String
  Verbose : Bool
deriving DecidableEq, Repr

/-- The flag defaults from `main`: triangle=W square=A cross=S circle=D,
up=I down=K left=J right=L, slider-left=Q slider-right=E. -/
def defaultConfig : Config :=
  { TriangleKey := "W", SquareKey := "A", CrossKey := "S", CircleKey := "D",
    LeftArrowKey := "J", RightArrowKey := "L", UpArrowKey := "I",
    DownArrowKey := "K", SliderLeftKey := "Q", SliderRightKey := "E",
    Verbose := false }

/-- The `TouchEvent` record delivered by the network layer; velocities and
coordinates are modelled as rationals. -/
structure TouchEvent where
  Typ : String
  ID : Int
  X : ℚ
  Y : ℚ
  Zone : String
  VX : ℚ
deriving DecidableEq

/-- The per-direction flags of `Controller.sliderState`. -/
structure SliderState where
  left : Bool
  right : Bool
deriving DecidableEq, Repr

/-- The Controller-owned mutable state (the backend state is threaded
separately, mirroring the `keyboard` interface field). -/
structure Controller where
  config : Config
  activeKeys : List (String × Bool)
  sliderState : SliderState
deriving DecidableEq

/-- `Controller.getKeyForZone`: primary key per zone, or the secondary
(arrow) key when `isSecond`; empty string for an unknown zone. -/
def Controller.getKeyForZone (c : Controller) (zone : String)
    (isSecond : Bool) : String :=
  match zone with
  | "triangle" => if isSecond then c.config.UpArrowKey else c.config.TriangleKey
  | "square" => if isSecond then c.config.LeftArrowKey else c.config.SquareKey
  | "cross" => if isSecond then c.config.DownArrowKey else c.config.CrossKey
  | "circle" => if isSecond then c.config.RightArrowKey else c.config.CircleKey
  | _ => ""

/-- A slider direction; `Dir.right` tags the auto-release task scheduled by
the right-slide branch, `Dir.left` the left one. -/
inductive Dir
  | left
  | right
deriving DecidableEq, Repr

/-- `Controller.HandleTouch`, generic over the keyboard backend `κ` (the Go
`KeyboardBackend` interface): `pressFn`/`releaseFn` are the backend's
`Press`/`Release`.  Their error results are bound and discarded exactly as
the source discards them.  Returns the new controller state, the new backend
state, and the list of auto-release tasks spawned by this call (the
`go func` goroutines that will fire after the 100 ms delay). -/
def Controller.HandleTouch {κ : Type}
    (pressFn releaseFn : String → κ → Option KbdError × κ)
    (c : Controller) (kb : κ) (event : TouchEvent) :
    Controller × κ × List Dir :=
  match event.Typ with
  | "start" =>
    let key := c.getKeyForZone event.Zone false
    if key ≠ "" then
      match pressFn key kb with
      | (_err, kb1) =>
        ({ c with activeKeys := setState c.activeKeys (toString event.ID) true },
         kb1, [])
    else (c, kb, [])
  | "end" =>
    let key := c.getKeyForZone event.Zone false
    if key ≠ "" then
      match releaseFn key kb with
      | (_err, kb1) =>
        ({ c with activeKeys := delState c.activeKeys (toString event.ID) },
         kb1, [])
    else (c, kb, [])
  | "slide" =>
    let threshold : ℚ := 0.5
    if event.VX > threshold then
      if !c.sliderState.right then
        match pressFn c.config.SliderRightKey kb with
        | (_err, kb1) =>
          ({ c with sliderState := { c.sliderState with right := true } },
           kb1, [Dir.right])
      else (c, kb, [])
    else if event.VX < -threshold then
      if !c.sliderState.left then
        match pressFn c.config.SliderLeftKey kb with
        | (_err, kb1) =>
          ({ c with sliderState := { c.sliderState with left := true } },
           kb1, [Dir.left])
      else (c, kb, [])
    else (c, kb, [])
  | _ => (c, kb, [])

/-- The body of a scheduled auto-release task once its 100 ms sleep ends:
re-acquire the lock, release the slider key, clear the direction flag.
The release error is discarded as in the source. -/
def Controller.AutoRelease {κ : Type}
    (releaseFn : String → κ → Option KbdError × κ)
    (c : Controller) (kb : κ) (d : Dir) : Controller × κ :=
  match d with
  | Dir.right =>
    match releaseFn c.config.SliderRightKey kb with
    | (_err, kb1) =>
      ({ c with sliderState := { c.sliderState with right := false } }, kb1)
  | Dir.left =>
    match releaseFn c.config.SliderLeftKey kb with
    | (_err, kb1) =>
      ({ c with sliderState := { c.sliderState with left := false } }, kb1)

/-- A backend call as seen across the `KeyboardBackend` interface. -/
inductive KbdCall
  | press (key : String)
  | release (key : String)
deriving DecidableEq, Repr

/-- Instrumented backend for observing the calls `HandleTouch` dispatches:
the state is the log of calls, every call succeeds. -/
def logPress (k : String) (log : List KbdCall) :
    Option KbdError × List KbdCall :=
  (none, log ++ [KbdCall.press k])

/-- Release half of the instrumented logging backend. -/
def logRelease (k : String) (log : List KbdCall) :
    Option KbdError × List KbdCall :=
  (none, log ++ [KbdCall.release k])

/-- Controller state at startup under the default key bindings. -/
def divaC0 : Controller :=
  { config := defaultConfig, activeKeys := [],
    sliderState := { left := false, right := false } }

/-- `divaC0` after a right slide has been pressed (right flag set). -/
def divaC1 : Controller :=
  { config := defaultConfig, activeKeys := [],
    sliderState := { left := false, right := true } }

/-- A slide touch event with the given horizontal velocity. -/
def slideEv (vx : ℚ) : TouchEvent :=
  { Typ := "slide", ID := 0, X := 0, Y := 0, Zone := "slider", VX := vx }

/-- Controller state with the left-slide flag active. -/
def divaCL : Controller :=
  { config := defaultConfig, activeKeys := [],
    sliderState := { left := true, right := false } }

/-- Invariant of the uinput backend: every key marked pressed is present in
the key-code table. -/
def UInputInv (u : UInputBackend) : Prop :=
  ∀ k, getState u.keyState k = true → (lookupKey linuxKeyCodes k).isSome

/-- An input-event record that releases a key: type `EV_KEY`, value 0. -/
def isReleaseEvent (ev : InputEvent) : Bool :=
  ev.typ == EV_KEY && ev.value == 0

/-- A `Close`-trace action that writes a key-release record. -/
def isKeyReleaseWrite : UAction → Bool
  | UAction.write ev => isReleaseEvent ev
  | _ => false

/-- An `xdotool keyup` dispatch. -/
def isKeyupCmd : XCmd → Bool
  | XCmd.keyup _ => true
  | _ => false

/-! ### Helper lemmas about the Go-map model -/

theorem getState_setState_self (m : List (String × Bool)) (k : String)
    (v : Bool) : getState (setState m k v) k = v := by
  induction m with
  | nil => simp [getState, setState, lookupKey]
  | cons p rest ih =>
    obtain ⟨a, b⟩ := p
    by_cases h : a = k
    · subst h
      simp [getState, setState, lookupKey]
    · simp only [getState, setState, lookupKey, if_neg h,
        if_neg (Ne.symm h)] at ih ⊢
      exact ih

theorem getState_setState_ne (m : List (String × Bool)) (k k' : String)
    (v : Bool) (h : k' ≠ k) :
    getState (setState m k v) k' = getState m k' := by
  induction m with
  | nil => simp [getState, setState, lookupKey, h]
  | cons p rest ih =>
    obtain ⟨a, b⟩ := p
    by_cases ha : a = k
    · subst ha
      simp [getState, setState, lookupKey, fun hh => h hh]
    · by_cases hk' : k' = a
      · subst hk'
        simp [getState, setState, lookupKey, ha]
      · simp only [getState, setState, lookupKey, if_neg ha,
          if_neg hk'] at ih ⊢
        exact ih

/-! ### Characterizations of the backend operations -/

theorem uinput_press_pressed (u : UInputBackend) (key : String)
    (t1 t2 : Timeval) (ws : List Bool)
    (h : getState u.keyState key = true) :
    u.Press key t1 t2 ws = (none, u, [], ws) := by
  unfold UInputBackend.Press
  rw [if_pos h]

theorem uinput_press_unknown (u : UInputBackend) (key : String)
    (t1 t2 : Timeval) (ws : List Bool)
    (hs : getState u.keyState key = false)
    (hl : lookupKey linuxKeyCodes key = none) :
    u.Press key t1 t2 ws = (some (KbdError.unknownKey key), u, [], ws) := by
  unfold UInputBackend.Press
  rw [hs, hl]
  rfl

theorem uinput_press_success (u : UInputBackend) (key : String) (code : Nat)
    (t1 t2 : Timeval)
    (hs : getState u.keyState key = false)
    (hl : lookupKey linuxKeyCodes key = some code) :
    u.Press key t1 t2 []
      = (none, { u with keyState := setState u.keyState key true },
         [⟨t1, EV_KEY, code, 1⟩, ⟨t2, EV_SYN, SYN_REPORT, 0⟩], []) := by
  unfold UInputBackend.Press
  rw [hs, hl]
  rfl

theorem uinput_release_not_pressed (u : UInputBackend) (key : String)
    (t1 t2 : Timeval) (ws : List Bool)
    (h : getState u.keyState key = false) :
    u.Release key t1 t2 ws = (none, u, [], ws) := by
  unfold UInputBackend.Release
  rw [h]
  rfl

theorem uinput_release_success (u : UInputBackend) (key : String) (code : Nat)
    (t1 t2 : Timeval)
    (hs : getState u.keyState key = true)
    (hl : lookupKey linuxKeyCodes key = some code) :
    u.Release key t1 t2 []
      = (none, { u with keyState := setState u.keyState key false },
         [⟨t1, EV_KEY, code, 0⟩, ⟨t2, EV_SYN, SYN_REPORT, 0⟩], []) := by
  unfold UInputBackend.Release
  rw [hs, hl]
  rfl

theorem x11_press_pressed (x : X11Backend) (key : String) (cs : List Bool)
    (h : getState x.keyState key = true) :
    x.Press key cs = (none, x, [], cs) := by
  unfold X11Backend.Press
  rw [if_pos h]

theorem x11_press_fresh (x : X11Backend) (key : String)
    (h : getState x.keyState key = false) :
    x.Press key []
      = (none, ⟨setState x.keyState key true⟩,
         [XCmd.keydown (toLowerStr key)], []) := by
  unfold X11Backend.Press
  rw [h]
  rfl

theorem x11_release_not_pressed (x : X11Backend) (key : String)
    (cs : List Bool) (h : getState x.keyState key = false) :
    x.Release key cs = (none, x, [], cs) := by
  unfold X11Backend.Release
  rw [h]
  rfl

theorem x11_release_pressed (x : X11Backend) (key : String)
    (h : getState x.keyState key = true) :
    x.Release key []
      = (none, ⟨setState x.keyState key false⟩,
         [XCmd.keyup (toLowerStr key)], []) := by
  unfold X11Backend.Release
  rw [h]
  rfl

/-! ### Claim theorems -/

/-- Claim C1: on the uinput backend, a successful `Press` of a not-pressed
key emits exactly two records in order — a key event with type `EV_KEY`,
the table code of the key and value 1, then a sync event with type
`EV_SYN`, code `SYN_REPORT` and value 0 — and `Release` of a pressed key
is symmetric with value 0 on the key event. -/
theorem C1_press_release_event_pair (u u' : UInputBackend) (key : String)
    (code : Nat) (t1 t2 : Timeval)
    (hs : getState u.keyState key = false)
    (hl : lookupKey linuxKeyCodes key = some code)
    (hs' : getState u'.keyState key = true) :
    u.Press key t1 t2 []
      = (none, { u with keyState := setState u.keyState key true },
         [⟨t1, EV_KEY, code, 1⟩, ⟨t2, EV_SYN, SYN_REPORT, 0⟩], [])
    ∧ u'.Release key t1 t2 []
      = (none, { u' with keyState := setState u'.keyState key false },
         [⟨t1, EV_KEY, code, 0⟩, ⟨t2, EV_SYN, SYN_REPORT, 0⟩], []) :=
  ⟨uinput_press_success u key code t1 t2 hs hl,
   uinput_release_success u' key code t1 t2 hs' hl⟩

/-- Witness for C1 at key "W" (code 17). -/
theorem C1_witness :
    (UInputBackend.mk 0 []).Press "W" ⟨0, 0⟩ ⟨0, 0⟩ []
      = (none, UInputBackend.mk 0 [("W", true)],
         [⟨⟨0, 0⟩, EV_KEY, 17, 1⟩, ⟨⟨0, 0⟩, EV_SYN, SYN_REPORT, 0⟩], [])
    ∧ (UInputBackend.mk 0 [("W", true)]).Release "W" ⟨0, 0⟩ ⟨0, 0⟩ []
      = (none, UInputBackend.mk 0 [("W", false)],
         [⟨⟨0, 0⟩, EV_KEY, 17, 0⟩, ⟨⟨0, 0⟩, EV_SYN, SYN_REPORT, 0⟩], []) :=
  C1_press_release_event_pair (UInputBackend.mk 0 [])
    (UInputBackend.mk 0 [("W", true)]) "W" 17 ⟨0, 0⟩ ⟨0, 0⟩ rfl rfl rfl

/-- Claim C2: on both backends, `Press` of an already-pressed key and
`Release` of a not-pressed key return success, emit no events / dispatch
no commands, and leave all state (and the I/O oracle) unchanged; two
consecutive presses of a fresh key emit events only once and leave the
key pressed. -/
theorem C2_idempotence :
    (∀ (u : UInputBackend) (key : String) (t1 t2 : Timeval) (ws : List Bool),
        getState u.keyState key = true →
        u.Press key t1 t2 ws = (none, u, [], ws)) ∧
    (∀ (u : UInputBackend) (key : String) (t1 t2 : Timeval) (ws : List Bool),
        getState u.keyState key = false →
        u.Release key t1 t2 ws = (none, u, [], ws)) ∧
    (∀ (x : X11Backend) (key : String) (cs : List Bool),
        getState x.keyState key = true →
        x.Press key cs = (none, x, [], cs)) ∧
    (∀ (x : X11Backend) (key : String) (cs : List Bool),
        getState x.keyState key = false →
        x.Release key cs = (none, x, [], cs)) ∧
    (∀ (u : UInputBackend) (key : String) (code : Nat) (t1 t2 t3 t4 : Timeval),
        getState u.keyState key = false →
        lookupKey linuxKeyCodes key = some code →
        (u.Press key t1 t2 []).2.2.1.length = 2 ∧
        getState (u.Press key t1 t2 []).2.1.keyState key = true ∧
        (u.Press key t1 t2 []).2.1.Press key t3 t4 []
          = (none, (u.Press key t1 t2 []).2.1, [], [])) ∧
    (∀ (x : X11Backend) (key : String),
        getState x.keyState key = false →
        (x.Press key []).2.2.1.length = 1 ∧
        getState (x.Press key []).2.1.keyState key = true ∧
        (x.Press key []).2.1.Press key []
          = (none, (x.Press key []).2.1, [], [])) := by
  refine ⟨uinput_press_pressed, uinput_release_not_pressed,
    x11_press_pressed, x11_release_not_pressed, ?_, ?_⟩
  · intro u key code t1 t2 t3 t4 hs hl
    rw [uinput_press_success u key code t1 t2 hs hl]
    refine ⟨rfl, ?_, ?_⟩
    · exact getState_setState_self u.keyState key true
    · exact uinput_press_pressed _ key t3 t4 []
        (getState_setState_self u.keyState key true)
  · intro x key hs
    rw [x11_press_fresh x key hs]
    refine ⟨rfl, ?_, ?_⟩
    · exact getState_setState_self x.keyState key true
    · exact x11_press_pressed _ key [] (getState_setState_self x.keyState key true)

/-- Witness for C2 at key "W" on both backends. -/
theorem C2_witness :
    (UInputBackend.mk 0 [("W", true)]).Press "W" ⟨0, 0⟩ ⟨0, 0⟩ []
      = (none, UInputBackend.mk 0 [("W", true)], [], []) ∧
    (UInputBackend.mk 0 []).Release "W" ⟨0, 0⟩ ⟨0, 0⟩ []
      = (none, UInputBackend.mk 0 [], [], []) ∧
    (X11Backend.mk [("W", true)]).Press "W" []
      = (none, X11Backend.mk [("W", true)], [], []) ∧
    (X11Backend.mk []).Release "W" []
      = (none, X11Backend.mk [], [], []) ∧
    ((UInputBackend.mk 0 []).Press "W" ⟨0, 0⟩ ⟨0, 0⟩ []).2.2.1.length = 2 ∧
    getState ((UInputBackend.mk 0 []).Press "W" ⟨0, 0⟩ ⟨0, 0⟩ []).2.1.keyState
      "W" = true ∧
    ((UInputBackend.mk 0 []).Press "W" ⟨0, 0⟩ ⟨0, 0⟩ []).2.1.Press "W"
        ⟨0, 0⟩ ⟨0, 0⟩ []
      = (none, ((UInputBackend.mk 0 []).Press "W" ⟨0, 0⟩ ⟨0, 0⟩ []).2.1, [], []) ∧
    ((X11Backend.mk []).Press "W" []).2.2.1.length = 1 ∧
    getState ((X11Backend.mk []).Press "W" []).2.1.keyState "W" = true ∧
    ((X11Backend.mk []).Press "W" []).2.1.Press "W" []
      = (none, ((X11Backend.mk []).Press "W" []).2.1, [], []) := by
  obtain ⟨h1, h2, h3, h4, h5, h6⟩ := C2_idempotence
  obtain ⟨h5a, h5b, h5c⟩ :=
    h5 (UInputBackend.mk 0 []) "W" 17 ⟨0, 0⟩ ⟨0, 0⟩ ⟨0, 0⟩ ⟨0, 0⟩ rfl rfl
  obtain ⟨h6a, h6b, h6c⟩ := h6 (X11Backend.mk []) "W" rfl
  exact ⟨h1 (UInputBackend.mk 0 [("W", true)]) "W" ⟨0, 0⟩ ⟨0, 0⟩ [] rfl,
    h2 (UInputBackend.mk 0 []) "W" ⟨0, 0⟩ ⟨0, 0⟩ [] rfl,
    h3 (X11Backend.mk [("W", true)]) "W" [] rfl,
    h4 (X11Backend.mk []) "W" [] rfl,
    h5a, h5b, h5c, h6a, h6b, h6c⟩

/-- Claim C3: on the uinput backend, pressing a key that is neither in the
table nor currently marked pressed returns the unknown-key error, emits no
events, and leaves the backend state (and I/O oracle) unchanged. -/
theorem C3_unknown_key (u : UInputBackend) (key : String) (t1 t2 : Timeval)
    (ws : List Bool)
    (hl : lookupKey linuxKeyCodes key = none)
    (hs : getState u.keyState key = false) :
    u.Press key t1 t2 ws = (some (KbdError.unknownKey key), u, [], ws) :=
  uinput_press_unknown u key t1 t2 ws hs hl

/-- Witness for C3 at key "ZZZ". -/
theorem C3_witness :
    (UInputBackend.mk 0 []).Press "ZZZ" ⟨0, 0⟩ ⟨0, 0⟩ []
      = (some (KbdError.unknownKey "ZZZ"), UInputBackend.mk 0 [], [], []) :=
  C3_unknown_key (UInputBackend.mk 0 []) "ZZZ" ⟨0, 0⟩ ⟨0, 0⟩ [] rfl rfl

/-- Claim C4: backend selection tries uinput first and selects it on
success; otherwise, if `DISPLAY` reads as a non-empty string, it tries the
X11 backend and selects it on success; in every other case it fails with
`NoBackendAvailable` (modelled as `none`).  `os.Getenv` cannot distinguish
an unset variable from one set to the empty string, so "set" is modelled
as a non-empty value. -/
theorem C4_backend_selection (uOk x11Ok : Bool) (display : String) :
    (uOk = true →
      NewKeyboardBackend uOk display x11Ok = some BackendChoice.uinput) ∧
    (uOk = false → display ≠ "" → x11Ok = true →
      NewKeyboardBackend uOk display x11Ok = some BackendChoice.x11) ∧
    (uOk = false → (display = "" ∨ x11Ok = false) →
      NewKeyboardBackend uOk display x11Ok = none) := by
  refine ⟨?_, ?_, ?_⟩
  · intro h
    simp [NewKeyboardBackend, h]
  · intro h hd hx
    simp [NewKeyboardBackend, h, hd, hx]
  · intro h hd
    rcases hd with hd | hd
    · simp [NewKeyboardBackend, h, hd]
    · cases hdisp : decide (display = "") <;>
        simp_all [NewKeyboardBackend]

/-- Witness for C4 on all three outcomes. -/
theorem C4_witness :
    NewKeyboardBackend true "" false = some BackendChoice.uinput ∧
    NewKeyboardBackend false ":0" true = some BackendChoice.x11 ∧
    NewKeyboardBackend false "" true = none ∧
    NewKeyboardBackend false ":0" false = none := by
  refine ⟨(C4_backend_selection true false "").1 rfl,
    (C4_backend_selection false true ":0").2.1 rfl (by decide) rfl,
    (C4_backend_selection false true "").2.2 rfl (Or.inl rfl),
    (C4_backend_selection false false ":0").2.2 rfl (Or.inr rfl)⟩

/-- Claim C8: the X11 backend dispatches the lowercased key name to
xdotool on press and release, while the uinput backend looks up and
dispatches the key exactly as given — concretely, pressing "Space" fails
on uinput with an unknown-key error although "space" is in the table,
while the X11 backend dispatches `keydown space`. -/
theorem C8_lowercase_asymmetry :
    (∀ (x : X11Backend) (key : String) (cs : List Bool),
        getState x.keyState key = false →
        (x.Press key cs).2.2.1 = [XCmd.keydown (toLowerStr key)]) ∧
    (∀ (x : X11Backend) (key : String) (cs : List Bool),
        getState x.keyState key = true →
        (x.Release key cs).2.2.1 = [XCmd.keyup (toLowerStr key)]) ∧
    (∀ (u : UInputBackend) (key : String) (t1 t2 : Timeval),
        getState u.keyState key = false →
        (lookupKey linuxKeyCodes key = none →
            u.Press key t1 t2 [] = (some (KbdError.unknownKey key), u, [], []))
        ∧ ∀ code, lookupKey linuxKeyCodes key = some code →
            (u.Press key t1 t2 []).2.2.1
              = [⟨t1, EV_KEY, code, 1⟩, ⟨t2, EV_SYN, SYN_REPORT, 0⟩]) ∧
    ((UInputBackend.mk 0 []).Press "Space" ⟨0, 0⟩ ⟨0, 0⟩ []
        = (some (KbdError.unknownKey "Space"), UInputBackend.mk 0 [], [], []) ∧
      lookupKey linuxKeyCodes "space" = some 57 ∧
      (X11Backend.mk []).Press "Space" []
        = (none, X11Backend.mk [("Space", true)], [XCmd.keydown "space"], [])) := by
  refine ⟨?_, ?_, ?_, ?_, rfl, ?_⟩
  · intro x key cs h
    unfold X11Backend.Press
    rw [h]
    rcases hw : wtake cs with ⟨ok, cs1⟩
    cases ok <;> simp [hw]
  · intro x key cs h
    unfold X11Backend.Release
    rw [h]
    rcases hw : wtake cs with ⟨ok, cs1⟩
    cases ok <;> simp [hw]
  · intro u key t1 t2 hs
    refine ⟨fun hl => uinput_press_unknown u key t1 t2 [] hs hl,
      fun code hl => ?_⟩
    rw [uinput_press_success u key code t1 t2 hs hl]
  · exact uinput_press_unknown _ "Space" ⟨0, 0⟩ ⟨0, 0⟩ [] rfl rfl
  · exact x11_press_fresh (X11Backend.mk []) "Space" rfl

/-- Witness for C8 at key "UP" on X11 and key "W" on uinput. -/
theorem C8_witness :
    ((X11Backend.mk []).Press "UP" []).2.2.1 = [XCmd.keydown "up"] ∧
    ((X11Backend.mk [("UP", true)]).Release "UP" []).2.2.1
      = [XCmd.keyup "up"] ∧
    ((UInputBackend.mk 0 []).Press "W" ⟨0, 0⟩ ⟨0, 0⟩ []).2.2.1
      = [⟨⟨0, 0⟩, EV_KEY, 17, 1⟩, ⟨⟨0, 0⟩, EV_SYN, SYN_REPORT, 0⟩] := by
  obtain ⟨h1, h2, h3, _⟩ := C8_lowercase_asymmetry
  exact ⟨h1 (X11Backend.mk []) "UP" [] rfl,
    h2 (X11Backend.mk [("UP", true)]) "UP" [] rfl,
    (h3 (UInputBackend.mk 0 []) "W" ⟨0, 0⟩ ⟨0, 0⟩ rfl).2 17 rfl⟩

/-- Claim C5: a slide event in a direction whose active flag is set presses
nothing and schedules no auto-release (for any backend), so the concrete
trace slide vx=0.6, slide vx=0.7 (still inside the debounce window), the
pending auto-release, then slide vx=0.7 again dispatches exactly
press "E", release "E", press "E" with one auto-release scheduled per
press. -/
theorem C5_slide_debounce :
    (∀ {κ : Type} (pf rf : String → κ → Option KbdError × κ)
        (c : Controller) (kb : κ) (e : TouchEvent),
        e.Typ = "slide" → c.sliderState.right = true → e.VX > 0.5 →
        Controller.HandleTouch pf rf c kb e = (c, kb, [])) ∧
    (∀ {κ : Type} (pf rf : String → κ → Option KbdError × κ)
        (c : Controller) (kb : κ) (e : TouchEvent),
        e.Typ = "slide" → c.sliderState.left = true → e.VX < -0.5 →
        Controller.HandleTouch pf rf c kb e = (c, kb, [])) ∧
    Controller.HandleTouch logPress logRelease divaC0 [] (slideEv (3/5))
      = (divaC1, [KbdCall.press "E"], [Dir.right]) ∧
    Controller.HandleTouch logPress logRelease divaC1 [KbdCall.press "E"]
        (slideEv (7/10))
      = (divaC1, [KbdCall.press "E"], []) ∧
    Controller.AutoRelease logRelease divaC1 [KbdCall.press "E"] Dir.right
      = (divaC0, [KbdCall.press "E", KbdCall.release "E"]) ∧
    Controller.HandleTouch logPress logRelease divaC0
        [KbdCall.press "E", KbdCall.release "E"] (slideEv (7/10))
      = (divaC1,
         [KbdCall.press "E", KbdCall.release "E", KbdCall.press "E"],
         [Dir.right]) := by
  refine ⟨?_, ?_, ?_, ?_, ?_, ?_⟩
  · intro κ pf rf c kb e hTyp hRight hVX
    obtain ⟨Typ, ID, X, Y, Zone, VX⟩ := e
    simp only at hTyp hVX
    subst hTyp
    simp [Controller.HandleTouch, hRight, hVX]
  · intro κ pf rf c kb e hTyp hLeft hVX
    obtain ⟨Typ, ID, X, Y, Zone, VX⟩ := e
    simp only at hTyp hVX
    subst hTyp
    have hngt : ¬ (VX > (0.5 : ℚ)) := by
      rw [not_lt]
      calc VX ≤ -0.5 := le_of_lt hVX
        _ ≤ 0.5 := by norm_num
    simp [Controller.HandleTouch, hngt, hVX, hLeft]
  · norm_num [Controller.HandleTouch, slideEv, divaC0, divaC1, logPress,
      defaultConfig]
  · norm_num [Controller.HandleTouch, slideEv, divaC1, logPress,
      defaultConfig]
  · norm_num [Controller.AutoRelease, divaC0, divaC1, logRelease,
      defaultConfig]
  · norm_num [Controller.HandleTouch, slideEv, divaC0, divaC1, logPress,
      defaultConfig]

/-- Witness for C5's suppression conjuncts at vx = 1 (right flag set) and
vx = -1 (left flag set). -/
theorem C5_witness :
    Controller.HandleTouch logPress logRelease divaC1 [] (slideEv 1)
      = (divaC1, [], []) ∧
    Controller.HandleTouch logPress logRelease divaCL [] (slideEv (-1))
      = (divaCL, [], []) := by
  obtain ⟨h1, h2, -⟩ := C5_slide_debounce
  exact ⟨h1 logPress logRelease divaC1 [] (slideEv 1) rfl rfl
      (by norm_num [slideEv]),
    h2 logPress logRelease divaCL [] (slideEv (-1)) rfl rfl
      (by norm_num [slideEv])⟩

/-- Claim C6: the slide threshold comparison is strict in both directions:
vx exactly 0.5 or exactly -0.5 triggers nothing and changes no state, while
vx > 0.5 (resp. vx < -0.5) with the corresponding flag clear presses the
right (resp. left) slider key, sets the flag, and schedules one
auto-release. -/
theorem C6_threshold_strict :
    (∀ {κ : Type} (pf rf : String → κ → Option KbdError × κ)
        (c : Controller) (kb : κ) (e : TouchEvent),
        e.Typ = "slide" → e.VX = 0.5 →
        Controller.HandleTouch pf rf c kb e = (c, kb, [])) ∧
    (∀ {κ : Type} (pf rf : String → κ → Option KbdError × κ)
        (c : Controller) (kb : κ) (e : TouchEvent),
        e.Typ = "slide" → e.VX = -0.5 →
        Controller.HandleTouch pf rf c kb e = (c, kb, [])) ∧
    (∀ {κ : Type} (pf rf : String → κ → Option KbdError × κ)
        (c : Controller) (kb : κ) (e : TouchEvent),
        e.Typ = "slide" → e.VX > 0.5 → c.sliderState.right = false →
        Controller.HandleTouch pf rf c kb e
          = ({ c with sliderState := { c.sliderState with right := true } },
             (pf c.config.SliderRightKey kb).2, [Dir.right])) ∧
    (∀ {κ : Type} (pf rf : String → κ → Option KbdError × κ)
        (c : Controller) (kb : κ) (e : TouchEvent),
        e.Typ = "slide" → e.VX < -0.5 → c.sliderState.left = false →
        Controller.HandleTouch pf rf c kb e
          = ({ c with sliderState := { c.sliderState with left := true } },
             (pf c.config.SliderLeftKey kb).2, [Dir.left])) := by
  refine ⟨?_, ?_, ?_, ?_⟩
  · intro κ pf rf c kb e hTyp hVX
    obtain ⟨Typ, ID, X, Y, Zone, VX⟩ := e
    simp only at hTyp hVX
    subst hTyp
    subst hVX
    norm_num [Controller.HandleTouch]
  · intro κ pf rf c kb e hTyp hVX
    obtain ⟨Typ, ID, X, Y, Zone, VX⟩ := e
    simp only at hTyp hVX
    subst hTyp
    subst hVX
    norm_num [Controller.HandleTouch]
  · intro κ pf rf c kb e hTyp hVX hRight
    obtain ⟨Typ, ID, X, Y, Zone, VX⟩ := e
    simp only at hTyp hVX
    subst hTyp
    simp [Controller.HandleTouch, hVX, hRight]
  · intro κ pf rf c kb e hTyp hVX hLeft
    obtain ⟨Typ, ID, X, Y, Zone, VX⟩ := e
    simp only at hTyp hVX
    subst hTyp
    have hngt : ¬ (VX > (0.5 : ℚ)) := by
      rw [not_lt]
      calc VX ≤ -0.5 := le_of_lt hVX
        _ ≤ 0.5 := by norm_num
    simp [Controller.HandleTouch, hngt, hVX, hLeft]

/-- Witness for C6 at vx = 0.5, vx = -0.5, vx = 0.51 and vx = -0.51. -/
theorem C6_witness :
    Controller.HandleTouch logPress logRelease divaC0 [] (slideEv (1/2))
      = (divaC0, [], []) ∧
    Controller.HandleTouch logPress logRelease divaC0 [] (slideEv (-(1/2)))
      = (divaC0, [], []) ∧
    Controller.HandleTouch logPress logRelease divaC0 [] (slideEv (51/100))
      = (divaC1, [KbdCall.press "E"], [Dir.right]) ∧
    Controller.HandleTouch logPress logRelease divaC0 []
        (slideEv (-(51/100)))
      = (divaCL, [KbdCall.press "Q"], [Dir.left]) := by
  obtain ⟨h1, h2, h3, h4⟩ := C6_threshold_strict
  exact ⟨h1 logPress logRelease divaC0 [] (slideEv (1/2)) rfl
      (by norm_num [slideEv]),
    h2 logPress logRelease divaC0 [] (slideEv (-(1/2))) rfl
      (by norm_num [slideEv]),
    h3 logPress logRelease divaC0 [] (slideEv (51/100)) rfl
      (by norm_num [slideEv]) rfl,
    h4 logPress logRelease divaC0 [] (slideEv (-(51/100))) rfl
      (by norm_num [slideEv]) rfl⟩

/-- Claim C9: whatever the backend does — including failing every
Press/Release — `HandleTouch` completes with the same controller state and
the same scheduled auto-releases, and its result carries no error: backend
failures never propagate out of the controller. -/
theorem C9_backend_errors_not_propagated :
    ∀ {κ₁ κ₂ : Type} (pf₁ rf₁ : String → κ₁ → Option KbdError × κ₁)
      (pf₂ rf₂ : String → κ₂ → Option KbdError × κ₂)
      (c : Controller) (kb₁ : κ₁) (kb₂ : κ₂) (e : TouchEvent),
      (Controller.HandleTouch pf₁ rf₁ c kb₁ e).1
        = (Controller.HandleTouch pf₂ rf₂ c kb₂ e).1 ∧
      (Controller.HandleTouch pf₁ rf₁ c kb₁ e).2.2
        = (Controller.HandleTouch pf₂ rf₂ c kb₂ e).2.2 := by
  intro κ₁ κ₂ pf₁ rf₁ pf₂ rf₂ c kb₁ kb₂ e
  unfold Controller.HandleTouch
  constructor <;>
  · split <;> dsimp only <;> (repeat' split) <;> rfl

/-! ### The pressed-implies-in-table invariant -/

theorem press_state_cases (u : UInputBackend) (key : String)
    (t1 t2 : Timeval) (ws : List Bool) :
    (u.Press key t1 t2 ws).2.1 = u ∨
    ((lookupKey linuxKeyCodes key).isSome ∧
      (u.Press key t1 t2 ws).2.1
        = { u with keyState := setState u.keyState key true }) := by
  unfold UInputBackend.Press
  split
  · exact Or.inl rfl
  · split
    · exact Or.inl rfl
    · next code hl =>
        split
        · exact Or.inl rfl
        · split
          · exact Or.inl rfl
          · exact Or.inr ⟨by rw [hl]; rfl, rfl⟩

theorem release_state_cases (u : UInputBackend) (key : String)
    (t1 t2 : Timeval) (ws : List Bool) :
    (u.Release key t1 t2 ws).2.1 = u ∨
    (u.Release key t1 t2 ws).2.1
      = { u with keyState := setState u.keyState key false } := by
  unfold UInputBackend.Release
  split
  · exact Or.inl rfl
  · split
    · exact Or.inl rfl
    · split
      · exact Or.inl rfl
      · split
        · exact Or.inl rfl
        · exact Or.inr rfl

theorem press_preserves_inv (u : UInputBackend) (key : String)
    (t1 t2 : Timeval) (ws : List Bool) (hInv : UInputInv u) :
    UInputInv (u.Press key t1 t2 ws).2.1 := by
  rcases press_state_cases u key t1 t2 ws with h | ⟨hsome, h⟩
  · rw [h]; exact hInv
  · rw [h]
    intro k hk
    by_cases hkey : k = key
    · subst hkey; exact hsome
    · exact hInv k (by rwa [getState_setState_ne u.keyState key k true hkey] at hk)

theorem release_preserves_inv (u : UInputBackend) (key : String)
    (t1 t2 : Timeval) (ws : List Bool) (hInv : UInputInv u) :
    UInputInv (u.Release key t1 t2 ws).2.1 := by
  rcases release_state_cases u key t1 t2 ws with h | h
  · rw [h]; exact hInv
  · rw [h]
    intro k hk
    by_cases hkey : k = key
    · subst hkey
      rw [getState_setState_self u.keyState k false] at hk
      exact absurd hk (by simp)
    · exact hInv k
        (by rwa [getState_setState_ne u.keyState key k false hkey] at hk)

theorem releaseAll_preserves_inv (keys : List String) :
    ∀ (u : UInputBackend) (tv : Timeval) (ws : List Bool), UInputInv u →
      UInputInv (UInputBackend.releaseAll u keys tv ws).1 := by
  induction keys with
  | nil => intro u tv ws hInv; exact hInv
  | cons k ks ih =>
    intro u tv ws hInv
    have h1 := release_preserves_inv u k tv tv ws hInv
    unfold UInputBackend.releaseAll
    rcases hr : u.Release k tv tv ws with ⟨r, u1, evs1, ws1⟩
    rcases hra : UInputBackend.releaseAll u1 ks tv ws1 with ⟨u2, evs2, ws2⟩
    have h2 : UInputInv u1 := by rw [hr] at h1; exact h1
    have h3 := ih u1 tv ws1 h2
    rw [hra] at h3
    simpa [hr, hra] using h3

theorem close_preserves_inv (u : UInputBackend) (tv : Timeval)
    (ws : List Bool) (hInv : UInputInv u) :
    UInputInv (u.Close tv ws).1 := by
  unfold UInputBackend.Close
  have h := releaseAll_preserves_inv (u.keyState.map Prod.fst) u tv ws hInv
  rcases hra : UInputBackend.releaseAll u (u.keyState.map Prod.fst) tv ws
    with ⟨u1, evs, ws1⟩
  rw [hra] at h
  simpa [hra] using h

theorem release_result_cases (u : UInputBackend) (key : String)
    (t1 t2 : Timeval) (ws : List Bool) (hInv : UInputInv u)
    (h : getState u.keyState key = true) :
    (u.Release key t1 t2 ws).1 = none ∨
    (u.Release key t1 t2 ws).1 = some KbdError.ioError := by
  obtain ⟨code, hc⟩ := Option.isSome_iff_exists.mp (hInv key h)
  unfold UInputBackend.Release UInputBackend.sendEvent
  rw [h, hc]
  rcases hw : wtake ws with ⟨ok, ws1⟩
  cases ok
  · simp [hw]
  · rcases hw2 : wtake ws1 with ⟨ok2, ws2⟩
    cases ok2 <;> simp [hw, hw2]

/-- Claim C10: the pressed-implies-in-table invariant is preserved by
`Press`, `Release` and `Close` (a key is marked pressed only after a
successful table lookup), and under it `Release` of a pressed key can only
succeed or fail with an I/O error — never with an unknown-key error. -/
theorem C10_pressed_keys_in_table :
    (∀ (u : UInputBackend) (key : String) (t1 t2 : Timeval) (ws : List Bool),
        UInputInv u → UInputInv (u.Press key t1 t2 ws).2.1) ∧
    (∀ (u : UInputBackend) (key : String) (t1 t2 : Timeval) (ws : List Bool),
        UInputInv u → UInputInv (u.Release key t1 t2 ws).2.1) ∧
    (∀ (u : UInputBackend) (tv : Timeval) (ws : List Bool),
        UInputInv u → UInputInv (u.Close tv ws).1) ∧
    (∀ (u : UInputBackend) (key : String) (t1 t2 : Timeval) (ws : List Bool),
        UInputInv u → getState u.keyState key = true →
        ((u.Release key t1 t2 ws).1 = none ∨
          (u.Release key t1 t2 ws).1 = some KbdError.ioError) ∧
        ∀ k', (u.Release key t1 t2 ws).1 ≠ some (KbdError.unknownKey k')) := by
  refine ⟨press_preserves_inv, release_preserves_inv, close_preserves_inv,
    fun u key t1 t2 ws hInv h => ⟨release_result_cases u key t1 t2 ws hInv h,
      fun k' hne => ?_⟩⟩
  rcases release_result_cases u key t1 t2 ws hInv h with hr | hr <;>
    rw [hr] at hne <;> simp at hne

/-- `UInputInv` holds for the concrete state pressing only "W". -/
theorem uWInv : UInputInv (UInputBackend.mk 0 [("W", true)]) := by
  intro k hk
  by_cases h1 : k = "W"
  · subst h1; rfl
  · exfalso
    simp [getState, lookupKey, h1] at hk

/-- Witness for C10 on the concrete backend state with "W" pressed. -/
theorem C10_witness :
    UInputInv ((UInputBackend.mk 0 [("W", true)]).Press "A" ⟨0, 0⟩ ⟨0, 0⟩
      []).2.1 ∧
    ((UInputBackend.mk 0 [("W", true)]).Release "W" ⟨0, 0⟩ ⟨0, 0⟩ []).1
      ≠ some (KbdError.unknownKey "W") := by
  obtain ⟨hp, hr, hc, hu⟩ := C10_pressed_keys_in_table
  exact ⟨hp (UInputBackend.mk 0 [("W", true)]) "A" ⟨0, 0⟩ ⟨0, 0⟩ [] uWInv,
    (hu (UInputBackend.mk 0 [("W", true)]) "W" ⟨0, 0⟩ ⟨0, 0⟩ [] uWInv rfl).2 "W"⟩

/-! ### Counting release events during Close -/

theorem releaseAll_count (keys : List String) :
    ∀ (u : UInputBackend) (tv : Timeval), keys.Nodup →
      (∀ k ∈ keys, getState u.keyState k = true →
        (lookupKey linuxKeyCodes k).isSome) →
      ((UInputBackend.releaseAll u keys tv []).2.1.countP isReleaseEvent)
        = keys.countP (fun k => getState u.keyState k) := by
  induction keys with
  | nil => intro u tv _ _; rfl
  | cons k ks ih =>
    intro u tv hnd hin
    obtain ⟨hk, hnd'⟩ := List.nodup_cons.mp hnd
    by_cases h : getState u.keyState k = true
    · obtain ⟨code, hc⟩ := Option.isSome_iff_exists.mp
        (hin k (List.mem_cons_self k ks) h)
      have hrel := uinput_release_success u k code tv tv h hc
      have hstate : ∀ k' ∈ ks,
          getState (setState u.keyState k false) k'
            = getState u.keyState k' :=
        fun k' hk' =>
          getState_setState_ne _ k k' false (fun hh => hk (hh ▸ hk'))
      have hin' : ∀ k' ∈ ks,
          getState (setState u.keyState k false) k' = true →
          (lookupKey linuxKeyCodes k').isSome := by
        intro k' hk' hks
        exact hin k' (List.mem_cons_of_mem k hk')
          (by rwa [hstate k' hk'] at hks)
      have hih := ih { u with keyState := setState u.keyState k false }
        tv hnd' hin'
      rcases hra : UInputBackend.releaseAll
          { u with keyState := setState u.keyState k false } ks tv []
        with ⟨u2, evs2, ws2⟩
      rw [hra] at hih
      simp only at hih
      have hcongr : List.countP
            (fun k' => getState (setState u.keyState k false) k') ks
          = List.countP (fun k' => getState u.keyState k') ks :=
        List.countP_congr (fun k' hk' => by rw [hstate k' hk'])
      simp only [UInputBackend.releaseAll, hrel, hra, List.countP_append,
        List.countP_cons, h, hih, hcongr, isReleaseEvent, EV_KEY, EV_SYN,
        SYN_REPORT]
      simp
      omega
    · have h' : getState u.keyState k = false := by
        simpa using h
      have hrel := uinput_release_not_pressed u k tv tv [] h'
      have hin' : ∀ k' ∈ ks, getState u.keyState k' = true →
          (lookupKey linuxKeyCodes k').isSome :=
        fun k' hk' => hin k' (List.mem_cons_of_mem k hk')
      have hih := ih u tv hnd' hin'
      rcases hra : UInputBackend.releaseAll u ks tv [] with ⟨u2, evs2, ws2⟩
      rw [hra] at hih
      simp only at hih
      simp only [UInputBackend.releaseAll, hrel, hra, List.countP_cons, h',
        hih]
      simp [hih]

theorem countP_keys_getState (m : List (String × Bool))
    (hnd : (m.map Prod.fst).Nodup) :
    (m.map Prod.fst).countP (fun k => getState m k)
      = (m.filter (fun p => p.2)).length := by
  induction m with
  | nil => rfl
  | cons p rest ih =>
    obtain ⟨a, b⟩ := p
    simp only [List.map_cons] at hnd ⊢
    obtain ⟨ha, hnd'⟩ := List.nodup_cons.mp hnd
    have hhead : getState ((a, b) :: rest) a = b := by
      simp [getState, lookupKey]
    have htail : ∀ k ∈ rest.map Prod.fst,
        getState ((a, b) :: rest) k = getState rest k := by
      intro k hkmem
      have hne : k ≠ a := fun hh => ha (hh ▸ hkmem)
      simp [getState, lookupKey, hne]
    rw [List.countP_cons, hhead,
      List.countP_congr (fun k hkmem => by rw [htail k hkmem]), ih hnd']
    cases b <;> simp [List.filter_cons]

theorem x11_releaseAll_count (keys : List String) :
    ∀ (x : X11Backend), keys.Nodup →
      ((X11Backend.releaseAll x keys []).2.1.countP isKeyupCmd)
        = keys.countP (fun k => getState x.keyState k) := by
  induction keys with
  | nil => intro x _; rfl
  | cons k ks ih =>
    intro x hnd
    obtain ⟨hk, hnd'⟩ := List.nodup_cons.mp hnd
    by_cases h : getState x.keyState k = true
    · have hrel := x11_release_pressed x k h
      have hstate : ∀ k' ∈ ks,
          getState (setState x.keyState k false) k'
            = getState x.keyState k' :=
        fun k' hk' =>
          getState_setState_ne _ k k' false (fun hh => hk (hh ▸ hk'))
      have hih := ih ⟨setState x.keyState k false⟩ hnd'
      rcases hra : X11Backend.releaseAll ⟨setState x.keyState k false⟩ ks []
        with ⟨x2, cmds2, cs2⟩
      rw [hra] at hih
      simp only at hih
      have hcongr : List.countP
            (fun k' => getState (setState x.keyState k false) k') ks
          = List.countP (fun k' => getState x.keyState k') ks :=
        List.countP_congr (fun k' hk' => by rw [hstate k' hk'])
      simp only [X11Backend.releaseAll, hrel, hra, List.countP_append,
        List.countP_cons, h, hih, hcongr, isKeyupCmd]
      simp
      omega
    · have h' : getState x.keyState k = false := by
        simpa using h
      have hrel := x11_release_not_pressed x k [] h'
      have hih := ih x hnd'
      rcases hra : X11Backend.releaseAll x ks [] with ⟨x2, cmds2, cs2⟩
      rw [hra] at hih
      simp only at hih
      simp only [X11Backend.releaseAll, hrel, hra, List.countP_cons, h',
        hih]
      simp [hih]

/-- Claim C7: under the all-writes-succeed world, `Close` on either backend
emits exactly one key-release record (resp. one keyup dispatch) per key
marked pressed at the moment of the call — release failures on individual
keys are ignored by construction — and the uinput `Close` trace ends with
the device-destroy ioctl followed by closing the descriptor. -/
theorem C7_close_releases_pressed :
    (∀ (u : UInputBackend) (tv : Timeval),
        (u.keyState.map Prod.fst).Nodup → UInputInv u →
        ((u.Close tv []).2.countP isKeyReleaseWrite
            = (u.keyState.filter (fun p => p.2)).length) ∧
        ∃ pre, (u.Close tv []).2
            = pre ++ [UAction.destroy, UAction.closeFd]) ∧
    (∀ (x : X11Backend),
        (x.keyState.map Prod.fst).Nodup →
        (x.Close []).2.countP isKeyupCmd
          = (x.keyState.filter (fun p => p.2)).length) := by
  constructor
  · intro u tv hnd hInv
    have hcount := releaseAll_count (u.keyState.map Prod.fst) u tv hnd
      (fun k _ hks => hInv k hks)
    rcases hra : UInputBackend.releaseAll u (u.keyState.map Prod.fst) tv []
      with ⟨u1, evs, ws1⟩
    rw [hra] at hcount
    constructor
    · unfold UInputBackend.Close
      rw [hra]
      simp only [List.countP_append, List.countP_map]
      have hcomp : (isKeyReleaseWrite ∘ UAction.write) = isReleaseEvent := rfl
      rw [hcomp, hcount, countP_keys_getState u.keyState hnd]
      simp [isKeyReleaseWrite]
    · refine ⟨evs.map UAction.write, ?_⟩
      unfold UInputBackend.Close
      rw [hra]
  · intro x hnd
    have hcount := x11_releaseAll_count (x.keyState.map Prod.fst) x hnd
    rcases hra : X11Backend.releaseAll x (x.keyState.map Prod.fst) []
      with ⟨x1, cmds, cs1⟩
    rw [hra] at hcount
    unfold X11Backend.Close
    rw [hra]
    rw [hcount, countP_keys_getState x.keyState hnd]

/-- `UInputInv` for the concrete state with "W" and "E" pressed and "A"
released. -/
theorem uWAEInv :
    UInputInv (UInputBackend.mk 0 [("W", true), ("A", false), ("E", true)]) := by
  intro k hk
  by_cases h1 : k = "W"
  · subst h1; rfl
  by_cases h2 : k = "A"
  · subst h2; rfl
  by_cases h3 : k = "E"
  · subst h3; rfl
  exfalso
  simp [getState, lookupKey, h1, h2, h3] at hk

/-- Witness for C7: two of three mapped keys are pressed, and exactly two
release records / keyup dispatches are emitted. -/
theorem C7_witness :
    ((UInputBackend.mk 0 [("W", true), ("A", false), ("E", true)]).Close
        ⟨0, 0⟩ []).2.countP isKeyReleaseWrite = 2 ∧
    ((X11Backend.mk [("W", true), ("A", false), ("E", true)]).Close
        []).2.countP isKeyupCmd = 2 := by
  obtain ⟨h1, h2⟩ := C7_close_releases_pressed
  exact ⟨(h1 (UInputBackend.mk 0 [("W", true), ("A", false), ("E", true)])
      ⟨0, 0⟩ (by decide) uWAEInv).1,
    h2 (X11Backend.mk [("W", true), ("A", false), ("E", true)]) (by decide)⟩

end Diva
